import Mathlib

/-!
Verification of the invocation-lifecycle coordinator (`Invoker`) of
`src/nnsight/contexts/Invoker.py` against its specification.

The embedding is a shallow one:

* the `Tracer` session state read and written by the coordinator becomes
  `TracerState` (fields `invoker`, `batch_start`, `batch_size`,
  `batched_input`, `kwargs`, `graph`, mirroring the attributes the source
  touches);
* the coordinator's own attributes become `InvokerState`
  (`inputs`, `scan`, `kwargs`, exactly the fields set in `Invoker.__init__`);
* the external Model Adapter is an abstract record `Model` of the three
  operations the coordinator calls: `_prepare_inputs` (fallible, returns the
  normalized inputs and this invocation's batch size), `_execute` run under
  the fake-tensor mode (fallible, performs no real work), and
  `_batch_inputs`;
* calls to `clear()`, `reset()` and the fake-mode `_execute` are recorded in
  an event trace so that "exactly once, in this order" is provable;
* a raised Python exception is an `Option E` / `Except E` value carried next
  to the state at the moment of the raise.

`Invoker.enter` transcribes `Invoker.__enter__` (lines 45-85 of the source),
`Invoker.exit` transcribes `Invoker.__exit__` (lines 87-91), and
`Invoker.apply` transcribes `Invoker.apply` (lines 93-102).  A separate
store-based model `scanPass` refines the scan block (lines 66-73) to make the
deep-copy isolation property expressible.
-/

set_option autoImplicit false

namespace Nnsight

universe u

variable {I V KW E N T A K : Type}

/-- The mutable `Tracer` session state the coordinator reads and writes:
`invoker` is the active-coordinator back-reference (`self.tracer.invoker`,
coordinators are identified by a `Nat` id), `batch_start` / `batch_size` /
`batched_input` are the batch bookkeeping fields, `kwargs` is
`self.tracer.kwargs` (the execute-kwargs deep-copied for the scan), and
`graph` is the intervention graph's node list. -/
structure TracerState (V KW N : Type) where
  invoker : Option Nat
  batch_start : Nat
  batch_size : Nat
  batched_input : V
  kwargs : KW
  graph : List N

/-- The coordinator's own attributes, exactly the fields assigned in
`Invoker.__init__`: `inputs` (the raw positional inputs, later overwritten by
`__enter__` with the prepared inputs), `scan`, and the call `kwargs`.  The
`tracer` back-reference is passed explicitly to each operation instead of
being stored. -/
structure InvokerState (I KW : Type) where
  inputs : I
  scan : Bool
  kwargs : KW

/-- The external Model Adapter, abstracted to the three operations
`__enter__` calls on it: `prepare_inputs` embeds `_prepare_inputs` (fallible;
on success returns the normalized inputs and this invocation's batch size),
`scan_execute` embeds `_execute` as run under `FakeTensorMode`/`FakeCopyMode`
(`some e` means the dry run raised `e`), and `batch_inputs` embeds
`_batch_inputs`. -/
structure Model (I V KW E : Type) where
  prepare_inputs : I → KW → Except E (I × Nat)
  scan_execute : I → KW → Option E
  batch_inputs : V → I → V

/-- Observable calls `__enter__` makes on the adapter's module state:
`model.clear()`, `model.reset()`, and the fake-mode `_execute` with the
arguments it received. -/
inductive Event (I KW : Type) where
  | clear : Event I KW
  | reset : Event I KW
  | scan_execute : I → KW → Event I KW
  deriving DecidableEq

/-- Result of `Invoker.enter`: the trace of adapter-state calls, the
coordinator's attributes and the session state at the moment `__enter__`
returned or raised, and the raised exception if any (`none` = returned
normally). -/
structure EnterResult (I V KW E N : Type) where
  trace : List (Event I KW)
  invoker : InvokerState I KW
  tracer : TracerState V KW N
  error : Option E

/-- Shallow embedding of `Invoker.__enter__` (source lines 45-85).
Control flow in source order: set `self.tracer.invoker = self`; call
`_prepare_inputs` (a raise propagates, leaving everything later untouched);
overwrite `self.inputs` with the prepared inputs; if `self.scan`, call
`clear()` then the fake-mode `_execute` (a raise propagates), else call
`reset()`; then `batch_start += batch_size` before `batch_size` is
overwritten with the new size, and `batched_input` is rebuilt by
`_batch_inputs`. -/
def Invoker.enter (m : Model I V KW E) (selfId : Nat)
    (inv : InvokerState I KW) (tr : TracerState V KW N) :
    EnterResult I V KW E N :=
  let tr := { tr with invoker := some selfId }
  match m.prepare_inputs inv.inputs inv.kwargs with
  | .error e => ⟨[], inv, tr, some e⟩
  | .ok pn =>
    let inv := { inv with inputs := pn.1 }
    if inv.scan then
      match m.scan_execute pn.1 tr.kwargs with
      | some e => ⟨[.clear, .scan_execute pn.1 tr.kwargs], inv, tr, some e⟩
      | none =>
        ⟨[.clear, .scan_execute pn.1 tr.kwargs], inv,
          { tr with
            batch_start := tr.batch_start + tr.batch_size
            batch_size := pn.2
            batched_input := m.batch_inputs tr.batched_input pn.1 }, none⟩
    else
      ⟨[.reset], inv,
        { tr with
          batch_start := tr.batch_start + tr.batch_size
          batch_size := pn.2
          batched_input := m.batch_inputs tr.batched_input pn.1 }, none⟩

/-- Shallow embedding of `Invoker.__exit__` (source lines 87-91): if an
exception is outstanding it is re-raised at once — before the line
`self.tracer.invoker = None` is ever reached — otherwise the
active-coordinator reference is cleared. -/
def Invoker.exit {E : Type} (exc : Option E) (tr : TracerState V KW N) :
    TracerState V KW N × Option E :=
  match exc with
  | some e => (tr, some e)
  | none => ({ tr with invoker := none }, none)

/-- Modelled from the spec: the Intervention Graph collaborator lives in
`..intervention`, which is not under `src/`; its contract
(`add(target, args, kwargs) -> proxy_handle`, §6: "accumulates operation
nodes") is modelled as appending one node to the node list and returning the
proxy handle for that node (its index). -/
def Graph.add (g : List N) (node : N) : List N × Nat :=
  (g ++ [node], g.length)

/-- Shallow embedding of `Invoker.apply` (source lines 93-102): a passthrough
that returns `self.tracer.graph.add(target=target, args=args, kwargs=kwargs)`. -/
def Invoker.apply (tr : TracerState V KW (T × A × K)) (target : T)
    (args : A) (kws : K) : TracerState V KW (T × A × K) × Nat :=
  match Graph.add tr.graph (target, args, kws) with
  | (g, p) => ({ tr with graph := g }, p)

/-- A sequence of invocations entered (and exited normally) one after the
other on one session, as in sequential `with` blocks: each step runs
`Invoker.enter`, propagates its exception if it raised (`none`), and
otherwise runs the normal-path `Invoker.exit` before the next invocation. -/
def enterSeq (m : Model I V KW E) :
    List (InvokerState I KW) → TracerState V KW N →
    Option (TracerState V KW N)
  | [], tr => some tr
  | inv :: rest, tr =>
    let r := Invoker.enter m 0 inv tr
    match r.error with
    | some _ => none
    | none => enterSeq m rest (Invoker.exit (E := E) none r.tracer).1

/-- The batch size `_prepare_inputs` reports for an invocation (0 if it
raises; only used in statements where it is known to succeed). -/
def prepSize (m : Model I V KW E) (inv : InvokerState I KW) : Nat :=
  match m.prepare_inputs inv.inputs inv.kwargs with
  | .ok pn => pn.2
  | .error _ => 0

/-- One fold step of the batched-input accumulator: `_batch_inputs` applied
to the invocation's normalized inputs (identity if `_prepare_inputs` raises;
only used where it is known to succeed). -/
def batchStep (m : Model I V KW E) (acc : V) (inv : InvokerState I KW) : V :=
  match m.prepare_inputs inv.inputs inv.kwargs with
  | .ok pn => m.batch_inputs acc pn.1
  | .error _ => acc

/-- A flat object store for the aliasing-sensitive part of the scan: cells
addressed by `Nat`, `next` the next fresh address.  Python object references
become cell addresses. -/
structure Store (Val : Type) where
  mem : Nat → Val
  next : Nat

/-- `copy.deepcopy`: allocate a fresh cell holding a copy of the value at
`r` and return its address. -/
def deepcopy {Val : Type} (s : Store Val) (r : Nat) : Store Val × Nat :=
  (⟨fun j => if j = s.next then s.mem r else s.mem j, s.next + 1⟩, s.next)

/-- Store-level embedding of the scan block (source lines 66-73):
`self.tracer.model._execute(*copy.deepcopy(self.inputs),
**copy.deepcopy(self.tracer.kwargs))`.  `ri` is the reference held in
`self.inputs`, `rk` the one held in `self.tracer.kwargs`; `fexec` is the
dry run, which — like any Python callee — may mutate the objects passed to
it, modelled by letting it rewrite the two argument cells arbitrarily. -/
def scanPass {Val : Type} (fexec : Val → Val → Val × Val) (s : Store Val)
    (ri rk : Nat) : Store Val :=
  let ci := (deepcopy s ri).2
  let s1 := (deepcopy s ri).1
  let ck := (deepcopy s1 rk).2
  let s2 := (deepcopy s1 rk).1
  let vs := fexec (s2.mem ci) (s2.mem ck)
  ⟨fun j => if j = ci then vs.1 else if j = ck then vs.2 else s2.mem j,
    s2.next⟩

/-! ### Concrete instances used by counterexamples and witnesses -/

/-- A concrete adapter: inputs are lists of samples, `_prepare_inputs`
returns the list unchanged with its length as the batch size, the dry run
succeeds, `_batch_inputs` is concatenation. -/
def mList : Model (List Nat) (List Nat) Unit Nat :=
  ⟨fun i _ => .ok (i, i.length), fun _ _ => none, fun v i => v ++ i⟩

/-- A concrete adapter whose `_prepare_inputs` always raises error 7. -/
def mPrepFail : Model (List Nat) (List Nat) Unit Nat :=
  ⟨fun _ _ => .error 7, fun _ _ => none, fun v i => v ++ i⟩

/-- A concrete adapter whose fake-mode `_execute` always raises error 3
(for example a shape mismatch surfaced by the dry run). -/
def mScanFail : Model (List Nat) (List Nat) Unit Nat :=
  ⟨fun i _ => .ok (i, i.length), fun _ _ => some 3, fun v i => v ++ i⟩

/-- A concrete adapter whose `_prepare_inputs` normalizes by doubling each
sample, so the prepared inputs differ from the raw inputs. -/
def mNorm : Model (List Nat) (List Nat) Unit Nat :=
  ⟨fun i _ => .ok (i.map (fun x => 2 * x), i.length), fun _ _ => none,
    fun v i => v ++ i⟩

/-- A fresh session state: no active coordinator, zero batch bookkeeping,
empty batched input, empty graph. -/
def trFresh : TracerState (List Nat) Unit Unit := ⟨none, 0, 0, [], (), []⟩

/-- A session state on which coordinator 0 is currently active. -/
def trActive : TracerState (List Nat) Unit Unit := ⟨some 0, 0, 0, [], (), []⟩

/-- First invocation of the end-to-end scenario: three samples. -/
def invA : InvokerState (List Nat) Unit := ⟨[1, 1, 1], true, ()⟩

/-- Second invocation of the end-to-end scenario: five samples. -/
def invB : InvokerState (List Nat) Unit := ⟨[2, 2, 2, 2, 2], true, ()⟩

/-- The session state the end-to-end scenario is expected to reach. -/
def trAfterAB : TracerState (List Nat) Unit Unit :=
  ⟨none, 3, 5, [1, 1, 1, 2, 2, 2, 2, 2], (), []⟩

/-- A scanning invocation with one sample. -/
def invScan : InvokerState (List Nat) Unit := ⟨[4], true, ()⟩

/-- The same single-sample invocation with scanning turned off. -/
def invNoScan : InvokerState (List Nat) Unit := ⟨[4], false, ()⟩

/-! ### Helper lemmas -/

/-- On every path through `__enter__` — success, `_prepare_inputs` raise, or
dry-run raise — the session's active-coordinator reference ends up pointing
at the entering coordinator: it is assigned first and never reset inside
`__enter__`. -/
theorem enter_invoker (m : Model I V KW E) (i : Nat)
    (inv : InvokerState I KW) (tr : TracerState V KW N) :
    (Invoker.enter m i inv tr).tracer.invoker = some i := by
  unfold Invoker.enter
  cases m.prepare_inputs inv.inputs inv.kwargs with
  | error e => rfl
  | ok pn =>
    by_cases hs : inv.scan
    · simp only [hs, if_true]
      cases m.scan_execute pn.1 { tr with invoker := some i }.kwargs <;> rfl
    · simp only [hs, Bool.false_eq_true, if_false]

/-- If `__enter__` raised, the batch bookkeeping fields are untouched: both
raise points precede the bookkeeping updates. -/
theorem enter_batch_of_error (m : Model I V KW E) (i : Nat)
    (inv : InvokerState I KW) (tr : TracerState V KW N)
    (h : (Invoker.enter m i inv tr).error.isSome) :
    (Invoker.enter m i inv tr).tracer.batch_start = tr.batch_start ∧
    (Invoker.enter m i inv tr).tracer.batch_size = tr.batch_size ∧
    (Invoker.enter m i inv tr).tracer.batched_input = tr.batched_input := by
  revert h
  unfold Invoker.enter
  cases m.prepare_inputs inv.inputs inv.kwargs with
  | error e => intro _; exact ⟨rfl, rfl, rfl⟩
  | ok pn =>
    by_cases hs : inv.scan
    · simp only [hs, if_true]
      cases m.scan_execute pn.1 { tr with invoker := some i }.kwargs with
      | none => intro h; simp at h
      | some e => intro _; exact ⟨rfl, rfl, rfl⟩
    · simp only [hs, Bool.false_eq_true, if_false]
      intro h; simp at h

/-! ### Claims -/

/-- C1, counterexample: exiting with an outstanding exception does NOT clear
the session's active-coordinator reference — with coordinator 0 active and
exception 5 outstanding, after `__exit__` the reference is still set, not
null, because `raise exc_val` runs before `self.tracer.invoker = None`. -/
theorem c1_counterexample :
    (Invoker.exit (some 5) trActive).1.invoker ≠ none := by
  decide

/-- C1, amended: `__exit__` re-raises an outstanding exception unchanged,
but on this exception path the active-coordinator reference is NOT cleared
(the whole state is returned untouched); it is cleared only on the normal
path.  A fresh coordinator can nonetheless be entered on the same session
immediately afterwards, because `__enter__` overwrites the reference
unconditionally. -/
theorem c1_exit_reraises_but_clears_only_on_normal_path
    (m : Model I V KW E) (i : Nat) (inv : InvokerState I KW)
    (e : E) (tr : TracerState V KW N) :
    Invoker.exit (some e) tr = (tr, some e) ∧
    Invoker.exit (E := E) none tr = ({ tr with invoker := none }, none) ∧
    (Invoker.enter m i inv (Invoker.exit (some e) tr).1).tracer.invoker =
      some i := by
  exact ⟨rfl, rfl, enter_invoker m i inv tr⟩

/-- C2, counterexample: entering coordinator 1 while coordinator 0 is still
active on the session raises nothing at all (`error = none`) — `__enter__`
performs no reentrancy check, so no ReentrancyError exists in the code. -/
theorem c2_counterexample :
    trActive.invoker = some 0 ∧
    (Invoker.enter mList 1 ⟨[9], true, ()⟩ trActive).error = none := by
  exact ⟨rfl, rfl⟩

/-- C2, amended: `__enter__` performs no reentrancy check: its result is
completely independent of the session's current active-coordinator
reference, which it silently overwrites with the entering coordinator
instead of raising. -/
theorem c2_enter_silently_overwrites_active_coordinator
    (m : Model I V KW E) (i j : Nat) (inv : InvokerState I KW)
    (tr : TracerState V KW N) :
    Invoker.enter m i inv { tr with invoker := some j } =
      Invoker.enter m i inv { tr with invoker := none } ∧
    (Invoker.enter m i inv tr).tracer.invoker = some i := by
  exact ⟨rfl, enter_invoker m i inv tr⟩

/-- C9: `apply` appends exactly one operation node to the session's
intervention graph (the node count grows by exactly one), returns the proxy
handle denoting that node, and leaves the batch bookkeeping fields and the
active-coordinator reference unchanged. -/
theorem c9_apply_appends_one_node (tr : TracerState V KW (T × A × K))
    (target : T) (args : A) (kws : K) :
    (Invoker.apply tr target args kws).1.graph =
      tr.graph ++ [(target, args, kws)] ∧
    (Invoker.apply tr target args kws).1.graph.length =
      tr.graph.length + 1 ∧
    (Invoker.apply tr target args kws).2 = tr.graph.length ∧
    (Invoker.apply tr target args kws).1.batch_start = tr.batch_start ∧
    (Invoker.apply tr target args kws).1.batch_size = tr.batch_size ∧
    (Invoker.apply tr target args kws).1.batched_input = tr.batched_input ∧
    (Invoker.apply tr target args kws).1.invoker = tr.invoker := by
  refine ⟨rfl, ?_, rfl, rfl, rfl, rfl, rfl⟩
  simp [Invoker.apply, Graph.add]

/-- C10: the very first mutation `__enter__` performs is assigning the
session's active-coordinator reference; consequently, whenever `__enter__`
raises (from `_prepare_inputs` or from the dry run), the reference already
points at the failed coordinator — it is not null — while the batch
bookkeeping fields are still unchanged. -/
theorem c10_enter_sets_invoker_before_any_failure
    (m : Model I V KW E) (i : Nat) (inv : InvokerState I KW)
    (tr : TracerState V KW N)
    (h : (Invoker.enter m i inv tr).error.isSome) :
    (Invoker.enter m i inv tr).tracer.invoker = some i ∧
    (Invoker.enter m i inv tr).tracer.batch_start = tr.batch_start ∧
    (Invoker.enter m i inv tr).tracer.batch_size = tr.batch_size ∧
    (Invoker.enter m i inv tr).tracer.batched_input = tr.batched_input := by
  exact ⟨enter_invoker m i inv tr, enter_batch_of_error m i inv tr h⟩

/-- C10, witness: with an adapter whose `_prepare_inputs` raises error 7,
entering a fresh session leaves batch bookkeeping at zero while the
active-coordinator reference points at the failed coordinator 2. -/
theorem c10_enter_sets_invoker_before_any_failure_witness :
    (Invoker.enter mPrepFail 2 invScan trFresh).error.isSome = true ∧
    ((Invoker.enter mPrepFail 2 invScan trFresh).tracer.invoker = some 2 ∧
     (Invoker.enter mPrepFail 2 invScan trFresh).tracer.batch_start =
       trFresh.batch_start ∧
     (Invoker.enter mPrepFail 2 invScan trFresh).tracer.batch_size =
       trFresh.batch_size ∧
     (Invoker.enter mPrepFail 2 invScan trFresh).tracer.batched_input =
       trFresh.batched_input) :=
  ⟨rfl, c10_enter_sets_invoker_before_any_failure mPrepFail 2 invScan trFresh
    (by decide)⟩

/-- C4: with scanning enabled and `_prepare_inputs` succeeding, `__enter__`
calls `clear()` exactly once and then runs the fake-mode dry run exactly
once (the whole adapter-state trace is exactly these two calls in this
order), and if the dry run raises, the exception propagates while the batch
bookkeeping fields are left unchanged — no real execution exists anywhere in
`__enter__`. -/
theorem c4_scan_clears_then_runs_dry_run_once
    (m : Model I V KW E) (i : Nat) (inv : InvokerState I KW)
    (tr : TracerState V KW N) (p : I) (n : Nat)
    (hscan : inv.scan = true)
    (hprep : m.prepare_inputs inv.inputs inv.kwargs = .ok (p, n)) :
    (Invoker.enter m i inv tr).trace =
      [Event.clear, Event.scan_execute p tr.kwargs] ∧
    ∀ e, m.scan_execute p tr.kwargs = some e →
      (Invoker.enter m i inv tr).error = some e ∧
      (Invoker.enter m i inv tr).tracer.batch_start = tr.batch_start ∧
      (Invoker.enter m i inv tr).tracer.batch_size = tr.batch_size ∧
      (Invoker.enter m i inv tr).tracer.batched_input = tr.batched_input := by
  constructor
  · simp only [Invoker.enter, hprep, hscan, if_true]
    cases hx : m.scan_execute p tr.kwargs <;> simp
  · intro e he
    simp [Invoker.enter, hprep, hscan, he]

/-- C4, witness: a dry run that raises error 3 on a fresh session — the
trace is exactly `clear` then the fake-mode execution, the error
propagates, and the batch bookkeeping fields are still zero. -/
theorem c4_scan_clears_then_runs_dry_run_once_witness :
    (invScan.scan = true ∧
     mScanFail.prepare_inputs invScan.inputs invScan.kwargs = .ok ([4], 1)) ∧
    (Invoker.enter mScanFail 0 invScan trFresh).trace =
      [Event.clear, Event.scan_execute [4] trFresh.kwargs] ∧
    (Invoker.enter mScanFail 0 invScan trFresh).error = some 3 ∧
    (Invoker.enter mScanFail 0 invScan trFresh).tracer.batch_start = 0 ∧
    (Invoker.enter mScanFail 0 invScan trFresh).tracer.batch_size = 0 ∧
    (Invoker.enter mScanFail 0 invScan trFresh).tracer.batched_input = [] := by
  have h := c4_scan_clears_then_runs_dry_run_once mScanFail 0 invScan trFresh
    [4] 1 rfl rfl
  exact ⟨⟨rfl, rfl⟩, h.1, (h.2 3 rfl).1, (h.2 3 rfl).2.1, (h.2 3 rfl).2.2.1,
    (h.2 3 rfl).2.2.2⟩

/-- C6: with scanning disabled and `_prepare_inputs` succeeding, `__enter__`
calls the lightweight `reset()` instead of `clear()` (the adapter-state
trace is exactly one `reset`), performs no fake-mode execution, and raises
nothing at entry — regardless of whether the dry run would have raised on
these inputs, so shape validation is deferred. -/
theorem c6_no_scan_calls_reset_and_defers_validation
    (m : Model I V KW E) (i : Nat) (inv : InvokerState I KW)
    (tr : TracerState V KW N) (p : I) (n : Nat)
    (hscan : inv.scan = false)
    (hprep : m.prepare_inputs inv.inputs inv.kwargs = .ok (p, n)) :
    (Invoker.enter m i inv tr).trace = [Event.reset] ∧
    (Invoker.enter m i inv tr).error = none := by
  simp [Invoker.enter, hprep, hscan]

/-- C6, witness: with an adapter whose dry run would raise error 3 on these
very inputs, entering with `scan = false` still performs only `reset` and
raises nothing. -/
theorem c6_no_scan_calls_reset_and_defers_validation_witness :
    (invNoScan.scan = false ∧
     mScanFail.prepare_inputs invNoScan.inputs invNoScan.kwargs =
       .ok ([4], 1) ∧
     mScanFail.scan_execute [4] () = some 3) ∧
    ((Invoker.enter mScanFail 0 invNoScan trFresh).trace = [Event.reset] ∧
     (Invoker.enter mScanFail 0 invNoScan trFresh).error = none) :=
  ⟨⟨rfl, rfl, rfl⟩, c6_no_scan_calls_reset_and_defers_validation mScanFail 0
    invNoScan trFresh [4] 1 rfl rfl⟩

/-- C7: if `_prepare_inputs` raises, the exception propagates unchanged from
`__enter__`, no adapter-state call (`clear`/`reset`/dry run) happens, and
the batch bookkeeping fields are left unmodified. -/
theorem c7_prepare_error_propagates_before_bookkeeping
    (m : Model I V KW E) (i : Nat) (inv : InvokerState I KW)
    (tr : TracerState V KW N) (e : E)
    (hprep : m.prepare_inputs inv.inputs inv.kwargs = .error e) :
    (Invoker.enter m i inv tr).error = some e ∧
    (Invoker.enter m i inv tr).trace = [] ∧
    (Invoker.enter m i inv tr).tracer.batch_start = tr.batch_start ∧
    (Invoker.enter m i inv tr).tracer.batch_size = tr.batch_size ∧
    (Invoker.enter m i inv tr).tracer.batched_input = tr.batched_input := by
  simp [Invoker.enter, hprep]

/-- C7, witness: an adapter that rejects every input with error 7 — entering
a fresh session propagates exactly error 7 and leaves the batch fields at
their initial values. -/
theorem c7_prepare_error_propagates_before_bookkeeping_witness :
    mPrepFail.prepare_inputs invScan.inputs invScan.kwargs = .error 7 ∧
    ((Invoker.enter mPrepFail 0 invScan trFresh).error = some 7 ∧
     (Invoker.enter mPrepFail 0 invScan trFresh).trace = [] ∧
     (Invoker.enter mPrepFail 0 invScan trFresh).tracer.batch_start =
       trFresh.batch_start ∧
     (Invoker.enter mPrepFail 0 invScan trFresh).tracer.batch_size =
       trFresh.batch_size ∧
     (Invoker.enter mPrepFail 0 invScan trFresh).tracer.batched_input =
       trFresh.batched_input) :=
  ⟨rfl, c7_prepare_error_propagates_before_bookkeeping mPrepFail 0 invScan
    trFresh 7 rfl⟩

/-- C8, counterexample: the stored inputs are NOT immutable after
construction — with an adapter that normalizes by doubling each sample,
`__enter__` overwrites `self.inputs`, so after entry the coordinator's
stored inputs differ from the raw inputs `[1, 2]` it was constructed
with. -/
theorem c8_counterexample :
    (Invoker.enter mNorm 0 ⟨[1, 2], true, ()⟩ trFresh).invoker.inputs ≠
      (⟨[1, 2], true, ()⟩ : InvokerState (List Nat) Unit).inputs := by
  decide

/-- C8, amended: `__enter__` replaces the coordinator's stored inputs with
the normalized inputs returned by `_prepare_inputs`; the raw inputs are kept
only until entry. -/
theorem c8_enter_replaces_inputs_with_prepared
    (m : Model I V KW E) (i : Nat) (inv : InvokerState I KW)
    (tr : TracerState V KW N) (p : I) (n : Nat)
    (hprep : m.prepare_inputs inv.inputs inv.kwargs = .ok (p, n)) :
    (Invoker.enter m i inv tr).invoker.inputs = p := by
  unfold Invoker.enter
  simp only [hprep]
  by_cases hs : inv.scan
  · simp only [hs, if_true]
    cases m.scan_execute p { tr with invoker := some i }.kwargs <;> rfl
  · simp only [hs, Bool.false_eq_true, if_false]

/-- C8, witness: raw inputs `[1, 2]` are replaced at entry by the normalized
inputs `[2, 4]` returned by the doubling adapter. -/
theorem c8_enter_replaces_inputs_with_prepared_witness :
    mNorm.prepare_inputs
      (⟨[1, 2], true, ()⟩ : InvokerState (List Nat) Unit).inputs
      (⟨[1, 2], true, ()⟩ : InvokerState (List Nat) Unit).kwargs =
      .ok ([2, 4], 2) ∧
    (Invoker.enter mNorm 0 ⟨[1, 2], true, ()⟩ trFresh).invoker.inputs =
      [2, 4] :=
  ⟨rfl, c8_enter_replaces_inputs_with_prepared mNorm 0 ⟨[1, 2], true, ()⟩
    trFresh [2, 4] 2 rfl⟩

/-- C5: because `__enter__` hands the dry run deep copies of the normalized
inputs and of the session's execute-kwargs, no mutation the dry run performs
on what it was passed can reach the cell holding `self.inputs` or the cell
holding `self.tracer.kwargs`: both are unchanged by the scan, whatever the
dry run does. -/
theorem c5_dry_run_cannot_mutate_originals
    {Val : Type} (fexec : Val → Val → Val × Val) (s : Store Val)
    (ri rk : Nat) (hi : ri < s.next) (hk : rk < s.next) :
    (scanPass fexec s ri rk).mem ri = s.mem ri ∧
    (scanPass fexec s ri rk).mem rk = s.mem rk := by
  have h1 : ri ≠ s.next := Nat.ne_of_lt hi
  have h2 : ri ≠ s.next + 1 := by omega
  have h3 : rk ≠ s.next := Nat.ne_of_lt hk
  have h4 : rk ≠ s.next + 1 := by omega
  constructor <;> simp [scanPass, deepcopy, h1, h2, h3, h4]

/-- A concrete two-cell store for the C5 witness. -/
def storeC : Store Nat := ⟨fun j => j + 10, 2⟩

/-- C5, witness: a dry run that overwrites both cells it was handed (with
sum and product) still leaves the original inputs cell 0 and kwargs cell 1
untouched. -/
theorem c5_dry_run_cannot_mutate_originals_witness :
    ((0 : Nat) < storeC.next ∧ (1 : Nat) < storeC.next) ∧
    ((scanPass (fun a b => (a + b, a * b)) storeC 0 1).mem 0 =
        storeC.mem 0 ∧
     (scanPass (fun a b => (a + b, a * b)) storeC 0 1).mem 1 =
        storeC.mem 1) :=
  ⟨⟨by decide, by decide⟩,
    c5_dry_run_cannot_mutate_originals (fun a b => (a + b, a * b)) storeC 0 1
      (by decide) (by decide)⟩

/-- On the success path of `__enter__`, the batch bookkeeping is exactly:
new `batch_start` is the old `batch_start` plus the old `batch_size` (the
previous invocation's size, added before being overwritten), new
`batch_size` is this invocation's prepared size, and the batched input is
extended by `_batch_inputs` with this invocation's normalized inputs. -/
theorem enter_ok_batch (m : Model I V KW E) (i : Nat)
    (inv : InvokerState I KW) (tr : TracerState V KW N)
    (h : (Invoker.enter m i inv tr).error = none) :
    (Invoker.enter m i inv tr).tracer.batch_start =
      tr.batch_start + tr.batch_size ∧
    (Invoker.enter m i inv tr).tracer.batch_size = prepSize m inv ∧
    (Invoker.enter m i inv tr).tracer.batched_input =
      batchStep m tr.batched_input inv := by
  revert h
  unfold Invoker.enter prepSize batchStep
  cases hp : m.prepare_inputs inv.inputs inv.kwargs with
  | error e => intro h; simp at h
  | ok pn =>
    by_cases hs : inv.scan
    · simp only [hs, if_true]
      cases hx : m.scan_execute pn.1 { tr with invoker := some i }.kwargs with
      | some e => intro h; simp at h
      | none => intro _; simp
    · simp only [hs, Bool.false_eq_true, if_false]
      intro _; simp

/-- Invariant of a sequence of invocations: summing the final `batch_start`
and `batch_size` accounts for every invocation's prepared size, the batched
input is the left fold of `_batch_inputs` over the normalized inputs in
entry order, and the final `batch_size` is the last invocation's size. -/
theorem enterSeq_spec (m : Model I V KW E) (invs : List (InvokerState I KW)) :
    ∀ (tr tr' : TracerState V KW N), enterSeq m invs tr = some tr' →
      tr'.batch_start + tr'.batch_size =
        tr.batch_start + tr.batch_size + (invs.map (prepSize m)).sum ∧
      tr'.batched_input = invs.foldl (batchStep m) tr.batched_input ∧
      (∀ x, invs.getLast? = some x → tr'.batch_size = prepSize m x) ∧
      (invs = [] → tr' = tr) := by
  induction invs with
  | nil =>
    intro tr tr' h
    cases h
    refine ⟨by simp, rfl, ?_, fun _ => rfl⟩
    intro x hx
    simp at hx
  | cons inv rest ih =>
    intro tr tr' h
    simp only [enterSeq] at h
    cases he : (Invoker.enter m 0 inv tr).error with
    | some e => rw [he] at h; simp at h
    | none =>
      rw [he] at h
      simp only [] at h
      obtain ⟨hb1, hb2, hb3⟩ := enter_ok_batch m 0 inv tr he
      obtain ⟨ih1, ih2, ih3, ih4⟩ := ih _ _ h
      have ht1 : (Invoker.exit (E := E) none
          (Invoker.enter m 0 inv tr).tracer).1.batch_start =
          tr.batch_start + tr.batch_size := hb1
      have ht2 : (Invoker.exit (E := E) none
          (Invoker.enter m 0 inv tr).tracer).1.batch_size =
          prepSize m inv := hb2
      have ht3 : (Invoker.exit (E := E) none
          (Invoker.enter m 0 inv tr).tracer).1.batched_input =
          batchStep m tr.batched_input inv := hb3
      refine ⟨?_, ?_, ?_, ?_⟩
      · rw [ih1, ht1, ht2]
        simp [List.sum_cons]
        omega
      · rw [ih2, ht3]
        rfl
      · intro x hx
        cases rest with
        | nil =>
          simp at hx
          have := ih4 rfl
          rw [this, ht2, hx]
        | cons r2 rs =>
          rw [List.getLast?_cons_cons] at hx
          exact ih3 x hx
      · intro hc
        exact absurd hc (by simp)

/-- C3: starting from zeroed batch bookkeeping, a sequence of invocations
entered (and closed) in order ends with `batch_start` equal to the sum of
the prepared batch sizes of all invocations but the last (each previous
size having been added before `batch_size` was overwritten), `batch_size`
equal to the last invocation's prepared size, and `batched_input` equal to
the left fold of `_batch_inputs` over the normalized inputs in entry
order. -/
theorem c3_sequential_batch_bookkeeping (m : Model I V KW E)
    (front : List (InvokerState I KW)) (lastI : InvokerState I KW)
    (tr tr' : TracerState V KW N)
    (h0 : tr.batch_start = 0) (h1 : tr.batch_size = 0)
    (h : enterSeq m (front ++ [lastI]) tr = some tr') :
    tr'.batch_start = (front.map (prepSize m)).sum ∧
    tr'.batch_size = prepSize m lastI ∧
    tr'.batched_input =
      (front ++ [lastI]).foldl (batchStep m) tr.batched_input := by
  obtain ⟨hsum, hfold, hlast, -⟩ := enterSeq_spec m (front ++ [lastI]) tr tr' h
  have hsize : tr'.batch_size = prepSize m lastI :=
    hlast lastI (List.getLast?_concat _)
  refine ⟨?_, hsize, hfold⟩
  rw [h0, h1, List.map_append, List.sum_append] at hsum
  simp at hsum
  omega

/-- C3, witness: the end-to-end scenario — invocations with batch sizes 3
and 5 entered in order on a fresh session produce `batch_start = 3`,
`batch_size = 5`, and a batched input whose first three samples are
invocation 1's and whose next five are invocation 2's. -/
theorem c3_sequential_batch_bookkeeping_witness :
    (trFresh.batch_start = 0 ∧ trFresh.batch_size = 0 ∧
     enterSeq mList ([invA] ++ [invB]) trFresh = some trAfterAB) ∧
    (trAfterAB.batch_start = ([invA].map (prepSize mList)).sum ∧
     trAfterAB.batch_size = prepSize mList invB ∧
     trAfterAB.batched_input =
       ([invA] ++ [invB]).foldl (batchStep mList) trFresh.batched_input) ∧
    (trAfterAB.batch_start = 3 ∧ trAfterAB.batch_size = 5 ∧
     trAfterAB.batched_input = [1, 1, 1] ++ [2, 2, 2, 2, 2]) :=
  ⟨⟨rfl, rfl, rfl⟩,
   c3_sequential_batch_bookkeeping mList [invA] invB trFresh trAfterAB
     rfl rfl rfl,
   ⟨rfl, rfl, rfl⟩⟩

end Nnsight
